import Mathlib

/-!
Shallow embedding of the wsh command-line front end: the context registry
(help.go), the single-pass argument-resolution engine (help.go `Parse`),
the plugin self-description grammar (args.go), and the plugin dispatcher
(`ExecutePlugin`).  Go strings are modelled as rune lists (`GoStr`), Go
maps as association lists with first-match lookup and replace-or-append
insertion, and Go's `error` results as `Option`/`Except` values.
-/

namespace Wsh

/-- Go strings, viewed as rune sequences. -/
abbrev GoStr := List Char

/-- The zero rune, Go's sentinel for "no short flag". -/
def noChar : Char := Char.ofNat 0

/-- First-match lookup in an association list (Go map read `m[k]`). -/
def assocFind {β : Type} (m : List (Char × β)) (k : Char) : Option β :=
  match m with
  | [] => none
  | (k', v) :: rest => if k' = k then some v else assocFind rest k

/-- Replace-or-append insertion in an association list (Go map write `m[k] = v`). -/
def assocInsert {β : Type} (m : List (Char × β)) (k : Char) (v : β) : List (Char × β) :=
  match m with
  | [] => [(k, v)]
  | (k', v') :: rest =>
    if k' = k then (k, v) :: rest else (k', v') :: assocInsert rest k v

/-- First-match lookup keyed by string (Go `map[string]string` read). -/
def smapFind (m : List (GoStr × GoStr)) (k : GoStr) : Option GoStr :=
  match m with
  | [] => none
  | (k', v) :: rest => if k' = k then some v else smapFind rest k

/-- Replace-or-append insertion keyed by string (Go `map[string]string` write). -/
def smapInsert (m : List (GoStr × GoStr)) (k v : GoStr) : List (GoStr × GoStr) :=
  match m with
  | [] => [(k, v)]
  | (k', v') :: rest =>
    if k' = k then (k, v) :: rest else (k', v') :: smapInsert rest k v

/-- `Flag` from help.go: short rune (0 if absent), long name, argument-name
label (non-empty iff the flag consumes a value), description. -/
structure Flag where
  short : Char
  long : GoStr
  argName : GoStr
  description : GoStr
deriving DecidableEq, Repr

/-- `PluginContext` from help.go: context letter, long name, description,
script path, flag list, and sub-context map (modelled as an association
list from letter to child node). -/
inductive PluginContext : Type where
  | mk (context : Char) (contextLong : GoStr) (description : GoStr)
       (script : GoStr) (flags : List Flag)
       (subContexts : List (Char × PluginContext)) : PluginContext

/-- The context letter of a node. -/
def PluginContext.context : PluginContext → Char
  | .mk c _ _ _ _ _ => c

/-- The long context name of a node. -/
def PluginContext.contextLong : PluginContext → GoStr
  | .mk _ l _ _ _ _ => l

/-- The description of a node. -/
def PluginContext.description : PluginContext → GoStr
  | .mk _ _ d _ _ _ => d

/-- The script path of a node (empty for built-ins). -/
def PluginContext.script : PluginContext → GoStr
  | .mk _ _ _ s _ _ => s

/-- The flag list of a node. -/
def PluginContext.flags : PluginContext → List Flag
  | .mk _ _ _ _ f _ => f

/-- The sub-context map of a node. -/
def PluginContext.subContexts : PluginContext → List (Char × PluginContext)
  | .mk _ _ _ _ _ s => s

/-- `PluginRegistry` from help.go: the map from root letter to root node.
The Go `sync.RWMutex` only serializes access and has no sequential
semantics, so it is not modelled. -/
structure PluginRegistry where
  contexts : List (Char × PluginContext)

/-- The error value produced by `Register` on a conflicting letter:
carries the letter, the existing script and the rejected script
(mirroring Go's formatted error message). -/
inductive RegisterError : Type where
  | conflict (letter : Char) (existing rejected : GoStr) : RegisterError
deriving DecidableEq, Repr

/-- `Register` from help.go: idempotent on (letter, script); a different
script for a bound letter is a conflict that leaves the registry
unchanged.  Returns the updated registry and the Go `error` result. -/
def Register (r : PluginRegistry) (ctx : PluginContext) :
    PluginRegistry × Option RegisterError :=
  match assocFind r.contexts ctx.context with
  | some existing =>
    if existing.script = ctx.script then (r, none)
    else (r, some (.conflict ctx.context existing.script ctx.script))
  | none => (⟨r.contexts ++ [(ctx.context, ctx)]⟩, none)

/-- The sub-context traversal loop of `Lookup` (help.go lines 245-254). -/
def lookupWalk (ctx : PluginContext) : List Char → Option PluginContext
  | [] => some ctx
  | c :: rest =>
    match assocFind ctx.subContexts c with
    | none => none
    | some sub => lookupWalk sub rest

/-- `Lookup` from help.go: walk the context path letter by letter through
the roots and then the sub-context maps; empty path or any unresolved
segment yields "not found" (`none`). -/
def Lookup (r : PluginRegistry) (contextPath : List Char) : Option PluginContext :=
  match contextPath with
  | [] => none
  | c :: rest =>
    match assocFind r.contexts c with
    | none => none
    | some ctx => lookupWalk ctx rest

/-- Number of entries bound to a given letter in the registry's
association list (in a Go map this is 0 or 1 by construction). -/
def countKey (m : List (Char × PluginContext)) (k : Char) : Nat :=
  match m with
  | [] => 0
  | (k', _) :: rest => (if k' = k then 1 else 0) + countKey rest k

/-- `ParseResult` from help.go. -/
structure ParseResult where
  contextPath : List Char
  context : Option PluginContext
  flags : List (GoStr × GoStr)
  args : List GoStr
  showHelp : Bool

/-- The parse-time errors of help.go's `Parse`, one constructor per
distinct `fmt.Errorf` site. -/
inductive ParseError : Type where
  | unknownLongFlag (name : GoStr) : ParseError
  | unknownContext (letter : Char) : ParseError
  | unknownShortFlag (letter : Char) : ParseError
  | flagRequiresArgument (letter : Char) : ParseError
deriving DecidableEq, Repr

/-- Go `strings.HasPrefix arg "--"` on a rune list. -/
def startsWith2 : GoStr → Bool
  | c1 :: c2 :: _ => decide (c1 = '-' ∧ c2 = '-')
  | _ => false

/-- Go `strings.HasPrefix arg "-"` on a rune list. -/
def startsWithDash : GoStr → Bool
  | c :: _ => decide (c = '-')
  | _ => false

/-- The literal `"true"` stored for boolean flags. -/
def trueStr : GoStr := ['t', 'r', 'u', 'e']

/-- The reserved long flag `"help"`. -/
def helpStr : GoStr := ['h', 'e', 'l', 'p']

/-- `findFlagInContext` from help.go: first flag of the context whose
short rune matches. -/
def findFlagInContext (ch : Char) (ctx : Option PluginContext) : Option Flag :=
  match ctx with
  | none => none
  | some c => c.flags.find? (fun f => f.short = ch)

/-- `findContextByLong` from help.go: first sub-context of the cursor
whose long name matches, else first root context whose long name
matches. -/
def findContextByLong (r : PluginRegistry) (longName : GoStr)
    (currentCtx : Option PluginContext) : Option PluginContext :=
  match (match currentCtx with
         | some c =>
           c.subContexts.find? (fun p : Char × PluginContext => p.2.contextLong = longName)
         | none => none) with
  | some p => some p.2
  | none =>
    (r.contexts.find? (fun p : Char × PluginContext => p.2.contextLong = longName)).map
      Prod.snd

/-- The key a short flag's value is stored under: the long name if
present, else the short rune as a one-rune string (help.go lines
394-397). -/
def flagKey (f : Flag) : GoStr :=
  if f.long = [] then [f.short] else f.long

/-- `matchLongFlag` from help.go: match a `--name` token against the
cursor's flags; `some (res, b)` means matched, with `b` true iff the
next whole token was consumed as the flag's value.  `none` means not
matched (including a value-requiring flag with no next token). -/
def matchLongFlag (flagName : GoStr) (ctx : Option PluginContext)
    (res : ParseResult) (rest : List GoStr) : Option (ParseResult × Bool) :=
  match ctx with
  | none => none
  | some c =>
    match c.flags.find? (fun f => f.long = flagName) with
    | none => none
    | some fl =>
      if fl.argName ≠ [] then
        match rest with
        | v :: _ => some ({ res with flags := smapInsert res.flags fl.long v }, true)
        | [] => none
      else
        some ({ res with flags := smapInsert res.flags fl.long trueStr }, false)

/-- The sub-context probe of help.go lines 357-365: the cursor's
sub-context bound to the letter, if any. -/
def subLookup (cur : Option PluginContext) (ch : Char) : Option PluginContext :=
  match cur with
  | some c => assocFind c.subContexts ch
  | none => none

/-- Defaulting of an unset cursor to the built-in Shell context
(help.go lines 311-317 and 379-385): returns the possibly-updated
cursor and result. -/
def defaultToShell (r : PluginRegistry) (cur : Option PluginContext)
    (res : ParseResult) : Option PluginContext × ParseResult :=
  match cur with
  | some c => (some c, res)
  | none =>
    match Lookup r ['S'] with
    | some s => (some s, { res with context := some s })
    | none => (none, res)

/-- The inner character loop of help.go's `Parse` over a short-flag
cluster (lines 344-418).  `rest` is the argument list after the cluster
token; the boolean in the result records whether its head was consumed
as a flag value. -/
def parseCluster (r : PluginRegistry) :
    List Char → Option PluginContext → ParseResult → List GoStr →
    Except ParseError (Option PluginContext × ParseResult × Bool)
  | [], cur, res, _ => .ok (cur, res, false)
  | ch :: chs, cur, res, rest =>
    if ch = 'h' then
      parseCluster r chs cur { res with showHelp := true } rest
    else if 'A' ≤ ch ∧ ch ≤ 'Z' then
      match subLookup cur ch with
      | some sub =>
        parseCluster r chs (some sub)
          { res with contextPath := res.contextPath ++ [ch], context := some sub } rest
      | none =>
        match Lookup r [ch] with
        | some ctx =>
          parseCluster r chs (some ctx)
            { res with contextPath := [ch], context := some ctx } rest
        | none => .error (.unknownContext ch)
    else
      match defaultToShell r cur res with
      | (cur2, res2) =>
        match findFlagInContext ch cur2 with
        | none => .error (.unknownShortFlag ch)
        | some fl =>
          if fl.argName ≠ [] then
            match chs with
            | _ :: _ => .error (.flagRequiresArgument ch)
            | [] =>
              match rest with
              | v :: _ =>
                .ok (cur2, { res2 with flags := smapInsert res2.flags (flagKey fl) v }, true)
              | [] => .error (.flagRequiresArgument ch)
          else
            parseCluster r chs cur2
              { res2 with flags := smapInsert res2.flags (flagKey fl) trueStr } rest

/-- The outer token loop of help.go's `Parse` (lines 297-426), with the
current-context cursor and the accumulating result made explicit. -/
def parseLoop (r : PluginRegistry) :
    List GoStr → Option PluginContext → ParseResult → Except ParseError ParseResult
  | [], _, res => .ok res
  | arg :: rest, cur, res =>
    if startsWith2 arg then
      let flagName := arg.drop 2
      if flagName = helpStr then
        parseLoop r rest cur { res with showHelp := true }
      else
        match defaultToShell r cur res with
        | (cur2, res2) =>
          match matchLongFlag flagName cur2 res2 rest with
          | some (res3, consumed) =>
            if consumed then parseLoop r rest.tail cur2 res3
            else parseLoop r rest cur2 res3
          | none =>
            match findContextByLong r flagName cur2 with
            | some ctx =>
              parseLoop r rest (some ctx)
                { res2 with contextPath := res2.contextPath ++ [ctx.context],
                            context := some ctx }
            | none => .error (.unknownLongFlag flagName)
    else if startsWithDash arg ∧ 1 < arg.length then
      match parseCluster r (arg.drop 1) cur res rest with
      | .error e => .error e
      | .ok (cur', res', consumed) =>
        if consumed then parseLoop r rest.tail cur' res'
        else parseLoop r rest cur' res'
    else
      parseLoop r rest cur { res with args := res.args ++ [arg] }
termination_by args => args.length
decreasing_by
  all_goals simp [List.length_tail]
  all_goals omega

/-- `Parse` from help.go: run the token loop from an unset cursor and an
empty result. -/
def Parse (r : PluginRegistry) (args : List GoStr) : Except ParseError ParseResult :=
  parseLoop r args none ⟨[], none, [], [], false⟩

/-! ### The self-description grammar of args.go -/

/-- The errors of args.go's definition parsing, one constructor per
distinct `fmt.Errorf` site; `wrapSubContext` and `wrapFlag` mirror the
`%w` wrapping in `parseFlagsAndSubContexts`. -/
inductive DefError : Type where
  | headerTooShort : DefError
  | missingDescription : DefError
  | shortNotCapital : DefError
  | expectedContextFlag : DefError
  | needShortOrLong : DefError
  | subContextTooShort : DefError
  | subContextExpectedLongFlag : DefError
  | flagNeedsDescription : DefError
  | flagNeedsShortOrLong : DefError
  | flagMissingDescription : DefError
  | wrapSubContext (e : DefError) : DefError
  | wrapFlag (e : DefError) : DefError
deriving DecidableEq, Repr

/-- The sub-context test of args.go (`HasPrefix "-"`, length 2,
uppercase second rune). -/
def isContextToken : GoStr → Bool
  | [c1, c2] => decide (c1 = '-' ∧ 'A' ≤ c2 ∧ c2 ≤ 'Z')
  | _ => false

/-- The short-flag-token test of args.go's `parseFlag` (`HasPrefix "-"`,
length 2, lowercase second rune). -/
def isShortFlagToken : GoStr → Bool
  | [c1, c2] => decide (c1 = '-' ∧ 'a' ≤ c2 ∧ c2 ≤ 'z')
  | _ => false

/-- Go `rune(s[1])` for the two-rune tokens of args.go (callers
guarantee the index exists; `noChar` is dead). -/
def strAt1 (s : GoStr) : Char :=
  match s with
  | _ :: c :: _ => c
  | _ => noChar

/-- The `remainingArgs` count of args.go's `parseFlag`: leading tokens
not starting with `-`. -/
def countNonFlag : List GoStr → Nat
  | [] => 0
  | s :: rest => if startsWithDash s then 0 else countNonFlag rest + 1

/-- `parseFlag` from args.go: `-s --long [argname] "description"` with
at least one of short/long required; returns the flag and the number of
tokens consumed. -/
def parseFlag (args : List GoStr) : Except DefError (Flag × Nat) :=
  if args.length < 2 then .error .flagNeedsDescription
  else
    let hasShort := isShortFlagToken (args.getD 0 [])
    let short := if hasShort then strAt1 (args.getD 0 []) else noChar
    let c1 := if hasShort then 1 else 0
    let hasLong := decide (c1 < args.length) && startsWith2 (args.getD c1 [])
    let long := if hasLong then (args.getD c1 []).drop 2 else []
    let c2 := if hasLong then c1 + 1 else c1
    if short = noChar ∧ long = [] then .error .flagNeedsShortOrLong
    else
      let remaining := countNonFlag (args.drop c2)
      if 2 ≤ remaining then
        .ok (⟨short, long, args.getD c2 [], args.getD (c2 + 1) []⟩, c2 + 2)
      else if remaining = 1 then
        .ok (⟨short, long, [], args.getD c2 []⟩, c2 + 1)
      else .error .flagMissingDescription

/-- The flag loop of args.go's `parseSubContext` (lines 214-232): parse
flags until the next bare uppercase-context token or end of stream;
returns the flags and the number of tokens consumed. -/
def parseSubFlags : List GoStr → Except DefError (List Flag × Nat)
  | [] => .ok ([], 0)
  | arg :: rest =>
    if isContextToken arg then .ok ([], 0)
    else
      match h : parseFlag (arg :: rest) with
      | .error e => .error e
      | .ok (fl, n) =>
        match parseSubFlags ((arg :: rest).drop n) with
        | .error e => .error e
        | .ok (fls, m) => .ok (fl :: fls, n + m)
termination_by args => args.length
decreasing_by
  have hn : 1 ≤ n := by
    simp only [parseFlag] at h
    split_ifs at h <;>
      first
        | exact Except.noConfusion h
        | (rw [Except.ok.injEq, Prod.mk.injEq] at h; obtain ⟨-, hn⟩ := h; omega)
  simp [List.length_drop]
  omega

/-- `parseSubContext` from args.go: requires `-X --name "description"`,
then flags up to the next uppercase-context token; the produced node
carries the loader's script path and has no sub-contexts of its own. -/
def parseSubContext (env : GoStr) (args : List GoStr) :
    Except DefError (PluginContext × Nat) :=
  if args.length < 3 then .error .subContextTooShort
  else if startsWith2 (args.getD 1 []) then
    match parseSubFlags (args.drop 3) with
    | .error e => .error e
    | .ok (fls, m) =>
      .ok (⟨strAt1 (args.getD 0 []), (args.getD 1 []).drop 2, args.getD 2 [],
            env, fls, []⟩, 3 + m)
  else .error .subContextExpectedLongFlag

/-- The token loop of args.go's `parseFlagsAndSubContexts` (lines
160-186), with the flag and sub-context accumulators made explicit. -/
def parseFlagsAndSubContextsLoop (env : GoStr) :
    List GoStr → List Flag → List (Char × PluginContext) →
    Except DefError (List Flag × List (Char × PluginContext))
  | [], flags, subs => .ok (flags, subs)
  | arg :: rest, flags, subs =>
    if isContextToken arg then
      match h : parseSubContext env (arg :: rest) with
      | .error e => .error (.wrapSubContext e)
      | .ok (subCtx, n) =>
        parseFlagsAndSubContextsLoop env ((arg :: rest).drop n) flags
          (assocInsert subs subCtx.context subCtx)
    else
      match h : parseFlag (arg :: rest) with
      | .error e => .error (.wrapFlag e)
      | .ok (fl, n) =>
        parseFlagsAndSubContextsLoop env ((arg :: rest).drop n) (flags ++ [fl]) subs
termination_by args _ _ => args.length
decreasing_by
  · have hn : 1 ≤ n := by
      simp only [parseSubContext] at h
      split_ifs at h <;>
        first
          | exact Except.noConfusion h
          | (split at h <;>
              first
                | exact Except.noConfusion h
                | (rw [Except.ok.injEq, Prod.mk.injEq] at h; obtain ⟨-, hn⟩ := h; omega))
    simp [List.length_drop]
    omega
  · have hn : 1 ≤ n := by
      simp only [parseFlag] at h
      split_ifs at h <;>
        first
          | exact Except.noConfusion h
          | (rw [Except.ok.injEq, Prod.mk.injEq] at h; obtain ⟨-, hn⟩ := h; omega)
    simp [List.length_drop]
    omega

/-- `parseFlagsAndSubContexts` from args.go. -/
def parseFlagsAndSubContexts (env : GoStr) (args : List GoStr) :
    Except DefError (List Flag × List (Char × PluginContext)) :=
  parseFlagsAndSubContextsLoop env args [] []

/-- The tail of args.go's `parsePluginDefinition` shared by every header
branch: reject an all-empty header, then parse the remaining tokens as
flags and sub-contexts and build the node (its script path comes from
the loader's `WSH_PLUGIN_SCRIPT` environment value, passed as `env`). -/
def parseDefFinish (env : GoStr) (args : List GoStr) (short : Char)
    (long desc : GoStr) (flagsStart : Nat) : Except DefError PluginContext :=
  if short = noChar ∧ long = [] then .error .needShortOrLong
  else
    match parseFlagsAndSubContexts env (args.drop flagsStart) with
    | .error e => .error e
    | .ok (fls, subs) => .ok ⟨short, long, desc, env, fls, subs⟩

/-- `parsePluginDefinition` from args.go: the three header forms.
`--<long> desc` derives the short letter by upper-casing the first rune
of `<long>` (unvalidated); `-<X> desc` requires `X` uppercase and
derives the long name as the lower-cased letter; `-<X> --<long> desc`
takes both explicitly. -/
def parsePluginDefinition (env : GoStr) (args : List GoStr) :
    Except DefError PluginContext :=
  if args.length < 2 then .error .headerTooShort
  else if startsWith2 (args.getD 0 []) then
    let contextLong := (args.getD 0 []).drop 2
    let contextShort :=
      if contextLong = [] then noChar else (contextLong.headD noChar).toUpper
    parseDefFinish env args contextShort contextLong (args.getD 1 []) 2
  else if startsWithDash (args.getD 0 []) ∧ (args.getD 0 []).length = 2 then
    let contextShort := strAt1 (args.getD 0 [])
    if ¬('A' ≤ contextShort ∧ contextShort ≤ 'Z') then .error .shortNotCapital
    else if startsWith2 (args.getD 1 []) then
      if args.length < 3 then .error .missingDescription
      else
        parseDefFinish env args contextShort ((args.getD 1 []).drop 2)
          (args.getD 2 []) 3
    else
      parseDefFinish env args contextShort [contextShort.toLower] (args.getD 1 []) 2
  else .error .expectedContextFlag

/-! ### The plugin dispatcher (`ExecutePlugin`) -/

/-- Outcome of launching a child process: it ran and exited with a code
(`cmd.Run` returning nil is `exited 0`, an `ExitError` is `exited c`),
or it could not be launched at all. -/
inductive ExecOutcome : Type where
  | exited (code : Int) : ExecOutcome
  | launchFailed : ExecOutcome

/-- Oracle for the operating-system effects of `ExecutePlugin`:
whether `os.Stat` succeeds on a path, and what launching a script with
given positional arguments and flag environment produces. -/
structure ExecEnv where
  statOk : GoStr → Bool
  run : GoStr → List GoStr → List (GoStr × GoStr) → ExecOutcome

/-- `ExecutePlugin` from the dispatcher source: empty script path or a
failed `os.Stat` yields the internal-error exit code 1; otherwise the
child is launched and its exit code is returned verbatim, with a launch
failure again yielding 1. -/
def ExecutePlugin (env : ExecEnv) (ctx : PluginContext)
    (flags : List (GoStr × GoStr)) (args : List GoStr) : Int :=
  if ctx.script = [] then 1
  else if env.statOk ctx.script then
    match env.run ctx.script args flags with
    | .exited code => code
    | .launchFailed => 1
  else 1

/-! ### Concrete fixtures (the scenario of the spec: root `T` (long `time`) with
`-o and --offline` and `-f and --from <days>`, sub-context `O`) -/

/-- The long flag name `"offline"`. -/
def offlineStr : GoStr := ['o', 'f', 'f', 'l', 'i', 'n', 'e']

/-- The long flag name `"from"`. -/
def fromStr : GoStr := ['f', 'r', 'o', 'm']

/-- The long context name `"time"`. -/
def timeStr : GoStr := ['t', 'i', 'm', 'e']

/-- The boolean flag `-o and --offline`. -/
def woffFlag : Flag := ⟨'o', offlineStr, [], []⟩

/-- The value-requiring flag `-f and --from <d>`. -/
def wfromFlag : Flag := ⟨'f', fromStr, ['d'], []⟩

/-- The sub-context `O` (long `"over"`) of the fixture `T` context. -/
def woctx : PluginContext := .mk 'O' ['o', 'v', 'e', 'r'] [] [] [] []

/-- The fixture root context `T` (long `time`) owning `-o and --offline`,
`-f and --from <d>` and sub-context `O`. -/
def wtctx : PluginContext :=
  .mk 'T' timeStr [] [] [woffFlag, wfromFlag] [('O', woctx)]

/-- The fixture registry holding the single root `T`. -/
def wreg : PluginRegistry := ⟨[('T', wtctx)]⟩

/-- The empty parse accumulator `Parse` starts from. -/
def emptyResult : ParseResult := ⟨[], none, [], [], false⟩

/-- A root node for letter `T` registered by script `"a"`. -/
def nodeA : PluginContext := .mk 'T' [] [] ['a'] [] []

/-- A competing node for letter `T` from a different script `"b"`. -/
def nodeB : PluginContext := .mk 'T' [] [] ['b'] [] []

/-- A registry in which letter `T` is already bound to `nodeA`. -/
def regA : PluginRegistry := ⟨[('T', nodeA)]⟩

/-- An execution oracle in which every script exists and every child
exits with code 1. -/
def execEnvExit1 : ExecEnv := ⟨fun _ => true, fun _ _ _ => .exited 1⟩

/-- A resolved context with an empty script path. -/
def scriptlessCtx : PluginContext := .mk 'M' [] [] [] [] []

/-- A resolved context with script path `"g"`. -/
def scriptedCtx : PluginContext := .mk 'G' [] [] ['g'] [] []

/-! ### Theorems -/

/-- C1: for every registry whose root bound to letter `T` has long name
`time` and owns, first in its flag list, the boolean flag `-o and --offline`
and the value-requiring flag `-f and --from`, the cluster form `-Tof 5` and
the long form `-T --offline --from 5` both parse successfully and
produce the identical result: flag map `offline ↦ true, from ↦ 5`,
empty leftover positional arguments, context path `[T]`. -/
theorem c1_cluster_long_equivalence (r : PluginRegistry) (tctx : PluginContext)
    (ofl ffl : Flag) (extra : List Flag)
    (hT : assocFind r.contexts 'T' = some tctx)
    (htl : tctx.contextLong = timeStr)
    (hflags : tctx.flags = ofl :: ffl :: extra)
    (hos : ofl.short = 'o') (hol : ofl.long = offlineStr) (hoa : ofl.argName = [])
    (hfs : ffl.short = 'f') (hfl : ffl.long = fromStr) (hfa : ffl.argName ≠ []) :
    Parse r [['-', 'T', 'o', 'f'], ['5']] =
      .ok ⟨['T'], some tctx, [(offlineStr, trueStr), (fromStr, ['5'])], [], false⟩ ∧
    Parse r [['-', 'T'], ['-', '-'] ++ offlineStr, ['-', '-'] ++ fromStr, ['5']] =
      .ok ⟨['T'], some tctx, [(offlineStr, trueStr), (fromStr, ['5'])], [], false⟩ := by
  constructor <;>
    simp [Parse, parseLoop, parseCluster, startsWith2, startsWithDash, subLookup,
      defaultToShell, Lookup, lookupWalk, findFlagInContext, matchLongFlag,
      findContextByLong, List.find?, flagKey, smapInsert, offlineStr, fromStr,
      trueStr, helpStr, hT, hflags, hos, hol, hoa, hfs, hfl, hfa]

/-- C1 witness: the equivalence at the concrete fixture registry. -/
theorem c1_witness :
    assocFind wreg.contexts 'T' = some wtctx ∧
    wtctx.flags = woffFlag :: wfromFlag :: [] ∧
    (Parse wreg [['-', 'T', 'o', 'f'], ['5']] =
      .ok ⟨['T'], some wtctx, [(offlineStr, trueStr), (fromStr, ['5'])], [], false⟩ ∧
    Parse wreg [['-', 'T'], ['-', '-'] ++ offlineStr, ['-', '-'] ++ fromStr, ['5']] =
      .ok ⟨['T'], some wtctx, [(offlineStr, trueStr), (fromStr, ['5'])], [], false⟩) :=
  ⟨rfl, rfl,
    c1_cluster_long_equivalence wreg wtctx woffFlag wfromFlag [] rfl rfl rfl
      rfl rfl rfl rfl rfl (by decide)⟩

/-- C2: during a short-flag cluster, an uppercase character that matches
a sub-context of the cursor appends its letter to the existing context
path; one that matches no sub-context but matches a root context resets
the path to exactly that single letter, discarding the accumulated path;
one that matches neither aborts with an unknown-context error. -/
theorem c2_uppercase_context_switch (r : PluginRegistry) (ch : Char)
    (chs : List Char) (cur : Option PluginContext) (res : ParseResult)
    (rest : List GoStr) (h1 : 'A' ≤ ch) (h2 : ch ≤ 'Z') :
    (∀ sub, subLookup cur ch = some sub →
      parseCluster r (ch :: chs) cur res rest =
        parseCluster r chs (some sub)
          { res with contextPath := res.contextPath ++ [ch], context := some sub }
          rest) ∧
    (∀ ctx, subLookup cur ch = none → Lookup r [ch] = some ctx →
      parseCluster r (ch :: chs) cur res rest =
        parseCluster r chs (some ctx)
          { res with contextPath := [ch], context := some ctx } rest) ∧
    (subLookup cur ch = none → Lookup r [ch] = none →
      parseCluster r (ch :: chs) cur res rest = .error (.unknownContext ch)) := by
  have hne : ch ≠ 'h' := by
    intro he
    rw [he] at h2
    exact absurd h2 (by decide)
  refine ⟨?_, ?_, ?_⟩
  · intro sub hsub
    simp [parseCluster, hne, h1, h2, hsub]
  · intro ctx hsub hroot
    simp [parseCluster, hne, h1, h2, hsub, hroot]
  · intro hsub hroot
    simp [parseCluster, hne, h1, h2, hsub, hroot]

/-- C2 witness: the three cases at the fixture registry — sub-context
`O` under the cursor `T` extends the path, root `T` from an unset cursor
resets it, unregistered `X` aborts. -/
theorem c2_witness :
    subLookup (some wtctx) 'O' = some woctx ∧
    subLookup none 'T' = none ∧ Lookup wreg ['T'] = some wtctx ∧
    subLookup none 'X' = none ∧ Lookup wreg ['X'] = none ∧
    (parseCluster wreg ['O'] (some wtctx) ⟨['T'], some wtctx, [], [], false⟩ [] =
      parseCluster wreg [] (some woctx)
        ⟨['T', 'O'], some woctx, [], [], false⟩ []) ∧
    (parseCluster wreg ['T'] none emptyResult [] =
      parseCluster wreg [] (some wtctx) ⟨['T'], some wtctx, [], [], false⟩ []) ∧
    parseCluster wreg ['X'] none emptyResult [] = .error (.unknownContext 'X') := by
  refine ⟨rfl, rfl, rfl, rfl, rfl, ?_, ?_, ?_⟩
  · exact (c2_uppercase_context_switch wreg 'O' [] (some wtctx)
      ⟨['T'], some wtctx, [], [], false⟩ [] (by decide) (by decide)).1 woctx rfl
  · exact (c2_uppercase_context_switch wreg 'T' [] none emptyResult []
      (by decide) (by decide)).2.1 wtctx rfl rfl
  · exact (c2_uppercase_context_switch wreg 'X' [] none emptyResult []
      (by decide) (by decide)).2.2 rfl rfl

/-- C3: in a context whose flag for short letter `f` requires a value,
a cluster in which `f` is followed by at least one more character always
aborts with the missing-argument error, whatever tokens follow the
cluster; when `f` ends its cluster, the next whole token is consumed as
the flag's value. -/
theorem c3_value_flag_ends_cluster (r : PluginRegistry) (c : PluginContext)
    (fl : Flag) (res : ParseResult)
    (hfind : findFlagInContext 'f' (some c) = some fl)
    (harg : fl.argName ≠ []) :
    (∀ ch2 chs rest, parseCluster r ('f' :: ch2 :: chs) (some c) res rest =
      .error (.flagRequiresArgument 'f')) ∧
    (∀ v rest, parseCluster r ['f'] (some c) res (v :: rest) =
      .ok (some c, { res with flags := smapInsert res.flags (flagKey fl) v },
           true)) := by
  constructor
  · intro ch2 chs rest
    simp [parseCluster, defaultToShell, hfind, harg]
  · intro v rest
    simp [parseCluster, defaultToShell, hfind, harg]

/-- C3 witness: with the fixture context `T`, cluster `fo` fails with
the missing-argument error while `f` at cluster end consumes `5`. -/
theorem c3_witness :
    findFlagInContext 'f' (some wtctx) = some wfromFlag ∧
    wfromFlag.argName ≠ [] ∧
    parseCluster wreg ['f', 'o'] (some wtctx) emptyResult [['5']] =
      .error (.flagRequiresArgument 'f') ∧
    parseCluster wreg ['f'] (some wtctx) emptyResult [['5']] =
      .ok (some wtctx,
           { emptyResult with
               flags := smapInsert emptyResult.flags (flagKey wfromFlag) ['5'] },
           true) := by
  refine ⟨rfl, by decide, ?_, ?_⟩
  · exact (c3_value_flag_ends_cluster wreg wtctx wfromFlag emptyResult rfl
      (by decide)).1 'o' [] [['5']]
  · exact (c3_value_flag_ends_cluster wreg wtctx wfromFlag emptyResult rfl
      (by decide)).2 ['5'] []

/-- An absent key occurs zero times in the association list. -/
theorem countKey_eq_zero_of_find_none {m : List (Char × PluginContext)} {k : Char}
    (h : assocFind m k = none) : countKey m k = 0 := by
  induction m with
  | nil => rfl
  | cons hd tl ih =>
    obtain ⟨k', v⟩ := hd
    simp only [assocFind] at h
    simp only [countKey]
    by_cases hk : k' = k
    · rw [if_pos hk] at h
      exact Option.noConfusion h
    · rw [if_neg hk] at h
      rw [if_neg hk, ih h]

/-- Key counting distributes over list append. -/
theorem countKey_append (m m2 : List (Char × PluginContext)) (k : Char) :
    countKey (m ++ m2) k = countKey m k + countKey m2 k := by
  induction m with
  | nil => simp [countKey]
  | cons hd tl ih =>
    obtain ⟨k', v⟩ := hd
    simp only [List.cons_append, countKey, List.append_eq]
    rw [ih]
    omega

/-- Appending a fresh binding makes it findable. -/
theorem assocFind_append_fresh {m : List (Char × PluginContext)} {k : Char}
    (v : PluginContext) (h : assocFind m k = none) :
    assocFind (m ++ [(k, v)]) k = some v := by
  induction m with
  | nil => simp [assocFind]
  | cons hd tl ih =>
    obtain ⟨k', v'⟩ := hd
    simp only [assocFind] at h
    simp only [List.cons_append, assocFind]
    by_cases hk : k' = k
    · rw [if_pos hk] at h
      exact Option.noConfusion h
    · rw [if_neg hk] at h ⊢
      exact ih h

/-- C4 counterexample: the claim says calling `Register` twice with the
same (letter, script) pair never returns an error, for every registry
state; but in a registry where letter `T` is already bound to script
`a`, both calls registering `(T, b)` return the conflict error. -/
theorem c4_counterexample :
    (Register regA nodeB).2 = some (.conflict 'T' ['a'] ['b']) ∧
    (Register (Register regA nodeB).1 nodeB).2 =
      some (.conflict 'T' ['a'] ['b']) :=
  ⟨rfl, rfl⟩

/-- C4 amended: when the letter is unbound, registering a (letter,
script) pair twice returns no error from either call and leaves exactly
one node bound to that letter; when the letter is already bound to a
node with the same script path, the call is a no-op returning no error;
when the letter is bound to a different script path, the call returns
the conflict error and leaves the registry unchanged — the first
registrant's node is retained. -/
theorem c4_register_idempotent_conflict (r : PluginRegistry) (ctx : PluginContext) :
    (assocFind r.contexts ctx.context = none →
      Register r ctx = (⟨r.contexts ++ [(ctx.context, ctx)]⟩, none) ∧
      Register (Register r ctx).1 ctx = ((Register r ctx).1, none) ∧
      countKey (Register r ctx).1.contexts ctx.context = 1) ∧
    (∀ ex, assocFind r.contexts ctx.context = some ex → ex.script = ctx.script →
      Register r ctx = (r, none)) ∧
    (∀ ex, assocFind r.contexts ctx.context = some ex → ex.script ≠ ctx.script →
      Register r ctx =
        (r, some (.conflict ctx.context ex.script ctx.script)) ∧
      assocFind (Register r ctx).1.contexts ctx.context = some ex) := by
  refine ⟨?_, ?_, ?_⟩
  · intro hnone
    have h1 : Register r ctx = (⟨r.contexts ++ [(ctx.context, ctx)]⟩, none) := by
      simp [Register, hnone]
    refine ⟨h1, ?_, ?_⟩
    · rw [h1]
      simp [Register, assocFind_append_fresh ctx hnone]
    · rw [h1]
      simp [countKey_append, countKey_eq_zero_of_find_none hnone, countKey]
  · intro ex hex hscript
    simp [Register, hex, hscript]
  · intro ex hex hscript
    constructor
    · simp [Register, hex, hscript]
    · have : (Register r ctx).1 = r := by simp [Register, hex, hscript]
      rw [this, hex]

/-- C4 witness: registering the fixture `T` node twice into the empty
registry succeeds both times and binds the letter once; registering the
conflicting `(T, b)` node into `regA` errors and retains `nodeA`. -/
theorem c4_witness :
    assocFind (⟨[]⟩ : PluginRegistry).contexts 'T' = none ∧
    (Register (⟨[]⟩ : PluginRegistry) nodeA =
        (⟨[('T', nodeA)]⟩, none) ∧
      Register (Register (⟨[]⟩ : PluginRegistry) nodeA).1 nodeA =
        ((Register (⟨[]⟩ : PluginRegistry) nodeA).1, none) ∧
      countKey (Register (⟨[]⟩ : PluginRegistry) nodeA).1.contexts 'T' = 1) ∧
    assocFind regA.contexts 'T' = some nodeA ∧ nodeA.script ≠ nodeB.script ∧
    (Register regA nodeB = (regA, some (.conflict 'T' ['a'] ['b'])) ∧
      assocFind (Register regA nodeB).1.contexts 'T' = some nodeA) := by
  refine ⟨rfl, ?_, rfl, by decide, ?_⟩
  · exact (c4_register_idempotent_conflict ⟨[]⟩ nodeA).1 rfl
  · exact (c4_register_idempotent_conflict regA nodeB).2.2 nodeA rfl (by decide)

/-- Walking a concatenated path walks the two halves in sequence. -/
theorem lookupWalk_append (p q : List Char) :
    ∀ ctx, lookupWalk ctx (p ++ q) =
      (lookupWalk ctx p).bind fun n => lookupWalk n q := by
  induction p with
  | nil => intro ctx; simp [lookupWalk]
  | cons c p ih =>
    intro ctx
    simp only [List.cons_append, lookupWalk]
    cases assocFind ctx.subContexts c with
    | none => rfl
    | some sub => exact ih sub

/-- C5: lookup of the empty path is "not found"; lookup of a path whose
first letter is no registered root is "not found"; a path extending a
resolved path by a segment that is no sub-context of the reached node is
"not found", never a partial node; and extending a resolved path by a
resolving segment reaches exactly that sub-context node. -/
theorem c5_lookup_totality (r : PluginRegistry) :
    Lookup r [] = none ∧
    (∀ c p, assocFind r.contexts c = none → Lookup r (c :: p) = none) ∧
    (∀ p c q n, Lookup r p = some n → assocFind n.subContexts c = none →
      Lookup r (p ++ c :: q) = none) ∧
    (∀ p c n m, Lookup r p = some n → assocFind n.subContexts c = some m →
      Lookup r (p ++ [c]) = some m) := by
  refine ⟨rfl, ?_, ?_, ?_⟩
  · intro c p h
    simp [Lookup, h]
  · intro p c q n hp hc
    match p with
    | [] => exact Option.noConfusion hp
    | c0 :: p' =>
      simp only [Lookup] at hp
      cases hfind : assocFind r.contexts c0 with
      | none =>
        rw [hfind] at hp
        exact Option.noConfusion hp
      | some ctx0 =>
        rw [hfind] at hp
        replace hp : lookupWalk ctx0 p' = some n := hp
        show Lookup r ((c0 :: p') ++ c :: q) = none
        simp only [List.cons_append, Lookup, hfind, lookupWalk_append, hp]
        simp [lookupWalk, hc]
  · intro p c n m hp hc
    match p with
    | [] => exact Option.noConfusion hp
    | c0 :: p' =>
      simp only [Lookup] at hp
      cases hfind : assocFind r.contexts c0 with
      | none =>
        rw [hfind] at hp
        exact Option.noConfusion hp
      | some ctx0 =>
        rw [hfind] at hp
        replace hp : lookupWalk ctx0 p' = some n := hp
        show Lookup r ((c0 :: p') ++ [c]) = some m
        simp only [List.cons_append, Lookup, hfind, lookupWalk_append, hp]
        simp [lookupWalk, hc]

/-- C5 witness: at the fixture registry, the empty path, the
unregistered root `X` and the unresolved extension `T,X` are all "not
found", while the resolving extension `T,O` reaches the sub-context
node. -/
theorem c5_witness :
    Lookup wreg [] = none ∧
    Lookup wreg ['X'] = none ∧
    Lookup wreg (['T'] ++ 'X' :: []) = none ∧
    Lookup wreg (['T'] ++ ['O']) = some woctx := by
  obtain ⟨h1, h2, h3, h4⟩ := c5_lookup_totality wreg
  exact ⟨h1, h2 'X' [] rfl, h3 ['T'] 'X' [] wtctx rfl rfl,
    h4 ['T'] 'O' wtctx woctx rfl rfl⟩

/-- C6 counterexample: the claim says a bare `-<X>` token after the
header accepts the same header grammar as a top-level definition;
but the short-only header `-O "od"`, accepted at top level, is rejected
when it appears as a sub-context definition. -/
theorem c6_counterexample :
    parsePluginDefinition [] [['-', 'T'], ['-', '-', 't'], ['t', 'd'],
        ['-', 'O'], ['o', 'd']] =
      .error (.wrapSubContext .subContextTooShort) ∧
    parsePluginDefinition [] [['-', 'O'], ['o', 'd']] =
      .ok (.mk 'O' ['o'] ['o', 'd'] [] [] []) := by
  have hlow : Char.toLower 'O' = 'o' := by decide
  constructor <;>
    simp [parsePluginDefinition, parseDefFinish, parseFlagsAndSubContexts,
      parseFlagsAndSubContextsLoop, parseSubContext, parseSubFlags, parseFlag,
      isContextToken, isShortFlagToken, startsWith2, startsWithDash, strAt1,
      countNonFlag, noChar, hlow]

/-- C6 amended: a bare `-<X>` uppercase token starts a sub-context
definition that requires the explicit short-plus-long header form
`-X --long description` — a shorter definition or one whose second
token is not a `--` token is rejected — followed by a sequence of flag
definitions only (the produced node has no sub-contexts of its own, so
sub-contexts do not nest), terminated by lookahead of the next
uppercase-context token or end of stream. -/
theorem c6_subcontext_grammar (env : GoStr) :
    (∀ args, args.length < 3 →
      parseSubContext env args = .error .subContextTooShort) ∧
    (∀ a0 a1 a2 rest, startsWith2 a1 = false →
      parseSubContext env (a0 :: a1 :: a2 :: rest) =
        .error .subContextExpectedLongFlag) ∧
    (∀ X long desc body fls m, parseSubFlags body = .ok (fls, m) →
      parseSubContext env (['-', X] :: (['-', '-'] ++ long) :: desc :: body) =
        .ok (.mk X long desc env fls [], 3 + m)) ∧
    (parseSubFlags [] = .ok ([], 0) ∧
      ∀ t rest, isContextToken t = true →
        parseSubFlags (t :: rest) = .ok ([], 0)) := by
  refine ⟨?_, ?_, ?_, ?_, ?_⟩
  · intro args h
    simp [parseSubContext, h]
  · intro a0 a1 a2 rest h
    have hlen : ¬ (a0 :: a1 :: a2 :: rest).length < 3 := by
      simp
    simp [parseSubContext, hlen, h]
  · intro X long desc body fls m h
    have hlen : ¬ ((['-', X] :: (['-', '-'] ++ long) :: desc :: body).length < 3) := by
      simp
    simp [parseSubContext, hlen, startsWith2, strAt1, h]
  · simp [parseSubFlags]
  · intro t rest h
    simp [parseSubFlags, h]

/-- C6 witness: a two-token sub-context definition is too short; a
sub-context header whose second token is not a `--` token is rejected;
the explicit form `-O --ov d` parses to a node without sub-contexts;
and the flag loop stops at an uppercase-context token. -/
theorem c6_witness :
    ([['-', 'O'], ['o', 'd']] : List GoStr).length < 3 ∧
    startsWith2 (['o', 'd'] : GoStr) = false ∧
    parseSubContext [] [['-', 'O'], ['o', 'd']] = .error .subContextTooShort ∧
    parseSubContext [] [['-', 'O'], ['o', 'd'], ['x']] =
      .error .subContextExpectedLongFlag ∧
    parseSubFlags [] = .ok ([], 0) ∧
    parseSubContext [] [['-', 'O'], ['-', '-'] ++ ['o', 'v'], ['d']] =
      .ok (.mk 'O' ['o', 'v'] ['d'] [] [] [], 3 + 0) ∧
    isContextToken ['-', 'P'] = true ∧
    parseSubFlags [['-', 'P'], ['p', 'd']] = .ok ([], 0) := by
  obtain ⟨h1, h2, h3, h4, h5⟩ := c6_subcontext_grammar []
  refine ⟨by decide, rfl, ?_, ?_, h4, ?_, rfl, ?_⟩
  · exact h1 [['-', 'O'], ['o', 'd']] (by decide)
  · exact h2 ['-', 'O'] ['o', 'd'] ['x'] [] rfl
  · exact h3 'O' ['o', 'v'] ['d'] [] [] 0 h4
  · exact h5 ['-', 'P'] [['p', 'd']] rfl

/-- C7 counterexample: the claim says a header whose short letter is not
an uppercase A-Z is rejected; but the long-only header `--9f d` derives
the short letter `9` from the first character of the long name without
any validation and is accepted. -/
theorem c7_counterexample :
    parsePluginDefinition [] [['-', '-', '9', 'f'], ['d']] =
      .ok (.mk '9' ['9', 'f'] ['d'] [] [] []) ∧
    ¬ ('A' ≤ '9' ∧ '9' ≤ 'Z') := by
  have hup : Char.toUpper '9' = '9' := by decide
  constructor
  · simp [parsePluginDefinition, parseDefFinish, parseFlagsAndSubContexts,
      parseFlagsAndSubContextsLoop, startsWith2, startsWithDash, strAt1,
      noChar, hup]
  · decide

/-- C7 amended: a `--<long>` header derives the short letter by
upper-casing the first character of `<long>` without validating it; a
`-<UPPER>` header derives the long name as the lower-cased letter; a
`-<X> --<long>` header takes both explicitly; and an explicit `-<X>`
header whose letter is not an uppercase A-Z is rejected with an
error. -/
theorem c7_header_forms (env : GoStr) :
    (∀ long desc rest fls subs, long ≠ [] →
      parseFlagsAndSubContextsLoop env rest [] [] = .ok (fls, subs) →
      parsePluginDefinition env ((['-', '-'] ++ long) :: desc :: rest) =
        .ok (.mk ((long.headD noChar).toUpper) long desc env fls subs)) ∧
    (∀ X desc rest fls subs, 'A' ≤ X → X ≤ 'Z' → startsWith2 desc = false →
      parseFlagsAndSubContextsLoop env rest [] [] = .ok (fls, subs) →
      parsePluginDefinition env (['-', X] :: desc :: rest) =
        .ok (.mk X [X.toLower] desc env fls subs)) ∧
    (∀ X long desc rest fls subs, 'A' ≤ X → X ≤ 'Z' →
      parseFlagsAndSubContextsLoop env rest [] [] = .ok (fls, subs) →
      parsePluginDefinition env
          (['-', X] :: (['-', '-'] ++ long) :: desc :: rest) =
        .ok (.mk X long desc env fls subs)) ∧
    (∀ X a1 rest, X ≠ '-' → ¬ ('A' ≤ X ∧ X ≤ 'Z') →
      parsePluginDefinition env (['-', X] :: a1 :: rest) =
        .error .shortNotCapital) := by
  refine ⟨?_, ?_, ?_, ?_⟩
  · intro long desc rest fls subs hlong hrest
    simp [parsePluginDefinition, parseDefFinish, parseFlagsAndSubContexts,
      startsWith2, hlong, hrest]
  · intro X desc rest fls subs h1 h2 hdesc hrest
    have hXd : X ≠ '-' := by
      intro he
      rw [he] at h1
      exact absurd h1 (by decide)
    have hXn : X ≠ noChar := by
      intro he
      rw [he] at h1
      exact absurd h1 (by decide)
    have hsw : startsWith2 ['-', X] = false := by
      simp [startsWith2, hXd]
    have hswd : startsWithDash ['-', X] = true := by
      simp [startsWithDash]
    have hlen : ¬ (rest.length + 1 + 1 < 2) := by omega
    simp [parsePluginDefinition, parseDefFinish, parseFlagsAndSubContexts,
      strAt1, hsw, hswd, hlen, hXn, h1, h2, hdesc, hrest]
  · intro X long desc rest fls subs h1 h2 hrest
    have hXd : X ≠ '-' := by
      intro he
      rw [he] at h1
      exact absurd h1 (by decide)
    have hXn : X ≠ noChar := by
      intro he
      rw [he] at h1
      exact absurd h1 (by decide)
    have hlen2 : ¬ (rest.length + 1 + 1 + 1 < 2) := by omega
    have hlen3 : ¬ (rest.length + 1 + 1 + 1 < 3) := by omega
    simp [parsePluginDefinition, parseDefFinish, parseFlagsAndSubContexts,
      startsWith2, startsWithDash, strAt1, hXd, hXn, h1, h2, hrest, hlen2,
      hlen3]
  · intro X a1 rest hXd hX
    simp [parsePluginDefinition, startsWith2, startsWithDash, strAt1, hXd, hX]

/-- C7 witness: the three accepted header forms and the rejected
explicit lowercase header, at concrete inputs. -/
theorem c7_witness :
    (['t', 'i'] : GoStr) ≠ [] ∧
    parseFlagsAndSubContextsLoop [] [] [] [] = .ok ([], []) ∧
    parsePluginDefinition [] [['-', '-'] ++ ['t', 'i'], ['d']] =
      .ok (.mk ((['t', 'i'].headD noChar).toUpper) ['t', 'i'] ['d'] [] [] []) ∧
    startsWith2 (['o', 'd'] : GoStr) = false ∧
    parsePluginDefinition [] [['-', 'O'], ['o', 'd']] =
      .ok (.mk 'O' ['O'.toLower] ['o', 'd'] [] [] []) ∧
    parsePluginDefinition [] [['-', 'T'], ['-', '-'] ++ ['t', 'm'], ['d']] =
      .ok (.mk 'T' ['t', 'm'] ['d'] [] [] []) ∧
    parsePluginDefinition [] [['-', 'x'], ['d']] = .error .shortNotCapital := by
  obtain ⟨h1, h2, h3, h4⟩ := c7_header_forms []
  have hok : parseFlagsAndSubContextsLoop ([] : GoStr) [] [] [] = .ok ([], []) := by
    simp [parseFlagsAndSubContextsLoop]
  refine ⟨by decide, hok, ?_, rfl, ?_, ?_, ?_⟩
  · exact h1 ['t', 'i'] ['d'] [] [] [] (by decide) hok
  · exact h2 'O' ['o', 'd'] [] [] [] (by decide) (by decide) rfl hok
  · exact h3 'T' ['t', 'm'] ['d'] [] [] [] (by decide) (by decide) hok
  · exact h4 'x' ['d'] [] (by decide) (by decide)

/-- C8 counterexample: the claim says the internal-error exit code for a
missing script is distinct from the child's own exit-code range; but a
child that itself exits with code 1 yields the same dispatcher result
as an empty script path, so the internal-error code 1 lies inside the
child's exit-code range. -/
theorem c8_counterexample :
    ExecutePlugin execEnvExit1 scriptlessCtx [] [] = 1 ∧
    ExecutePlugin execEnvExit1 scriptedCtx [] [] = 1 :=
  ⟨rfl, rfl⟩

/-- C8 amended: a resolved context with a non-empty, existing script
propagates the child's exit code verbatim; an empty or non-existent
script path yields the fixed internal-error exit code 1, which is
non-zero but not outside the child's possible exit-code range. -/
theorem c8_exit_code_propagation (env : ExecEnv) (ctx : PluginContext)
    (flags : List (GoStr × GoStr)) (args : List GoStr) :
    (∀ code, ctx.script ≠ [] → env.statOk ctx.script = true →
      env.run ctx.script args flags = .exited code →
      ExecutePlugin env ctx flags args = code) ∧
    (ctx.script = [] → ExecutePlugin env ctx flags args = 1) ∧
    (env.statOk ctx.script = false → ExecutePlugin env ctx flags args = 1) ∧
    (1 : Int) ≠ 0 := by
  refine ⟨?_, ?_, ?_, by decide⟩
  · intro code hscript hstat hrun
    simp [ExecutePlugin, hscript, hstat, hrun]
  · intro hscript
    simp [ExecutePlugin, hscript]
  · intro hstat
    simp [ExecutePlugin, hstat]

/-- C8 witness: a child exiting with code 1 has its code propagated
verbatim, and the empty script path yields the internal-error code 1. -/
theorem c8_witness :
    scriptedCtx.script ≠ [] ∧ execEnvExit1.statOk scriptedCtx.script = true ∧
    execEnvExit1.run scriptedCtx.script [] [] = .exited 1 ∧
    ExecutePlugin execEnvExit1 scriptedCtx [] [] = 1 ∧
    scriptlessCtx.script = [] ∧
    ExecutePlugin execEnvExit1 scriptlessCtx [] [] = 1 ∧ (1 : Int) ≠ 0 := by
  obtain ⟨h1, h2, -, h4⟩ := c8_exit_code_propagation execEnvExit1 scriptedCtx [] []
  refine ⟨by decide, rfl, rfl, h1 1 (by decide) rfl rfl, rfl, ?_, h4⟩
  exact (c8_exit_code_propagation execEnvExit1 scriptlessCtx [] []).2.1 rfl

/-- C9: when the final input token is `--name` for a value-requiring
flag of the current context whose long name names no sub-context or
root context either, the parse loop aborts with the unknown-flag error
(not the missing-argument error), producing no parse result and hence
recording no value for the flag. -/
theorem c9_trailing_long_value_flag (r : PluginRegistry) (c : PluginContext)
    (fl : Flag) (name : GoStr) (res : ParseResult)
    (hname : name ≠ helpStr)
    (hfind : c.flags.find? (fun f => f.long = name) = some fl)
    (harg : fl.argName ≠ [])
    (hctx : findContextByLong r name (some c) = none) :
    parseLoop r [['-', '-'] ++ name] (some c) res =
      .error (.unknownLongFlag name) := by
  simp [parseLoop, startsWith2, defaultToShell, matchLongFlag, hname, hfind,
    harg, hctx]

/-- C9 witness: at the fixture, the final token `--from` with the `T`
context current aborts with the unknown-flag error. -/
theorem c9_witness :
    fromStr ≠ helpStr ∧
    wtctx.flags.find? (fun f => f.long = fromStr) = some wfromFlag ∧
    wfromFlag.argName ≠ [] ∧
    findContextByLong wreg fromStr (some wtctx) = none ∧
    parseLoop wreg [['-', '-'] ++ fromStr] (some wtctx) emptyResult =
      .error (.unknownLongFlag fromStr) :=
  ⟨by decide, rfl, by decide, rfl,
    c9_trailing_long_value_flag wreg wtctx wfromFlag fromStr emptyResult
      (by decide) rfl (by decide) rfl⟩

/-- C10: the single-character token `-` is never treated as a flag,
cluster or context switch: at any point of the parse, over any registry,
it is appended verbatim to the leftover positional-argument list and
parsing continues with the following tokens. -/
theorem c10_single_dash_is_positional (r : PluginRegistry) (rest : List GoStr)
    (cur : Option PluginContext) (res : ParseResult) :
    parseLoop r (['-'] :: rest) cur res =
      parseLoop r rest cur { res with args := res.args ++ [['-']] } := by
  simp [parseLoop, startsWith2, startsWithDash]

end Wsh
